import Mathlib

/-!
# Verification of the arngit core (vault, guarded-repo registry, watcher, cipher)

Shallow embedding of the Go sources:

* `internal/core/protected.go` — the guarded-repository registry
  (`ProtectedRepoManager`): path canonicalization (`filepath.Abs`/`Clean`),
  coverage (`isSubPath` built on `filepath.Rel`), `Protect`, `Unprotect`,
  `IsProtected`, `GetProtection`, and the rune-sized password hash.
* `internal/automation/version.go` — the credential vault (`AccountManager`:
  `Add` / `Remove` / `Switch` / `Current`) and the AES-256-GCM secret cipher
  (`encrypt` / `decrypt`, base64 token encoding).
* the watcher file (package `automation`) — `NewWatcher`, `checkThreshold`,
  the `Start` polling loop, `push`, and `ParseSize`.

Machine integers follow the Go types: `byte` arithmetic carries an explicit
`% 256`, the `uint64` hash accumulator a `% 2 ^ 64`, and the `rune`
conversion the `int32` two-complement truncation.  File-system and process
effects (the working directory, clock readings, the per-poll answers of the
git inspection collaborator, the random nonce) are explicit parameters.
-/

namespace Arngit

/-! ## Small association-map model of a Go `map`

The registry and the vault each hold a Go `map`; we model one as an
association list with one entry per key (lookup, overwrite-insert, erase). -/

def mapLookup {κ ν : Type} [DecidableEq κ] (k : κ) : List (κ × ν) → Option ν
  | [] => none
  | (k₁, v) :: rest => if k₁ = k then some v else mapLookup k rest

def mapInsert {κ ν : Type} [DecidableEq κ] (k : κ) (v : ν) : List (κ × ν) → List (κ × ν)
  | [] => [(k, v)]
  | (k₁, v₁) :: rest => if k₁ = k then (k, v) :: rest else (k₁, v₁) :: mapInsert k v rest

def mapErase {κ ν : Type} [DecidableEq κ] (k : κ) : List (κ × ν) → List (κ × ν)
  | [] => []
  | (k₁, v₁) :: rest => if k₁ = k then rest else (k₁, v₁) :: mapErase k rest

/-! ## Paths: `filepath.Abs`, `filepath.Clean`, `filepath.Rel` (Unix)

A path is a possibly-relative list of segments.  `filepath.Clean` on an
absolute path drops empty and `.` segments and resolves `..` lexically
(at the root, `..` stays at the root).  `filepath.Abs` joins a relative
path onto the working directory and cleans.  `filepath.Rel` of two clean
absolute paths strips the common prefix and prepends one `..` per
remaining base segment; the empty result renders as `.`; on Unix, with
two absolute arguments, it never fails and never returns an absolute
path. -/

structure GoPath where
  absolute : Bool
  segs : List String
deriving DecidableEq

def cleanAbs (segs : List String) : List String :=
  segs.foldl
    (fun acc s =>
      if s = "" ∨ s = "." then acc
      else if s = ".." then acc.dropLast
      else acc ++ [s])
    []

def goAbs (cwd : List String) (p : GoPath) : List String :=
  if p.absolute then cleanAbs p.segs else cleanAbs (cwd ++ p.segs)

def commonPrefixLen : List String → List String → Nat
  | a :: as_, b :: bs => if a = b then 1 + commonPrefixLen as_ bs else 0
  | _, _ => 0

def relSegments (base targ : List String) : List String :=
  let c := commonPrefixLen base targ
  List.replicate (base.length - c) ".." ++ targ.drop c

/-- `isSubPath(path, parentPath)` from `protected.go`: computes
`rel := filepath.Rel(parentPath, path)` and returns
`rel != ".." && !filepath.IsAbs(rel) && rel != "."`.  For clean absolute
arguments `rel` is never absolute, `rel == ".."` means `path` is the
direct parent of `parentPath`, and `rel == "."` means equality — so the
test admits much more than descendants. -/
def isSubPath (path parentPath : List String) : Bool :=
  let rel := relSegments parentPath path
  ¬(rel = [".."] ∨ rel = [])

/-! ## Password hash (`hashPassword` / `verifyPassword`, protected.go)

Go folds `hash = hash*31 + uint64(c) + uint64(i)` over the string, `c`
ranging over runes and `i` over their *byte* offsets, then returns
`string(rune(hash))`: the `uint64` is truncated to a signed 32-bit rune
and any value outside the valid Unicode scalar range collapses to
U+FFFD.  A password is a list of rune scalar values; the hash is the
scalar value of the single rune of the result string. -/

def utf8Len (c : Nat) : Nat :=
  if c < 0x80 then 1 else if c < 0x800 then 2 else if c < 0x10000 then 3 else 4

def hashAccum : Nat → Nat → List Nat → Nat
  | h, _, [] => h
  | h, i, c :: cs => hashAccum ((h * 31 + c + i) % 2 ^ 64) (i + utf8Len c) cs

def runeOfUint64 (h : Nat) : Int :=
  let r : Nat := h % 2 ^ 32
  if r < 2 ^ 31 then (r : Int) else (r : Int) - 2 ^ 32

def stringOfRune (r : Int) : Nat :=
  if 0 ≤ r ∧ r ≤ 0x10FFFF ∧ ¬(0xD800 ≤ r ∧ r ≤ 0xDFFF) then r.toNat else 0xFFFD

def hashPassword (password : List Nat) : Nat :=
  stringOfRune (runeOfUint64 (hashAccum 0 0 password))

def verifyPassword (password : List Nat) (hash : Nat) : Bool :=
  hashPassword password = hash

/-! ## The guarded-repository registry (`ProtectedRepoManager`)

State: the `repos` map, keyed by canonical absolute path.  The stored
`Password` field is `""` (no password) or the single-rune hash; we model
it as `Option Nat`.  Persistence (`save`) always succeeds in the model;
the working directory of the process is an explicit `cwd` argument
because `filepath.Abs` consults it. -/

structure ProtectedRepo where
  path : List String
  password : Option Nat
  protectedAt : Int
  lastAccessed : Option Int
deriving DecidableEq

abbrev Registry := List (List String × ProtectedRepo)

inductive AppError where
  | gitProtected
  | notFound
  | duplicateAccount (name : String)
deriving DecidableEq

def IsProtected (repos : Registry) (cwd : List String) (repoPath : GoPath) : Bool :=
  let absPath := goAbs cwd repoPath
  repos.any (fun e => absPath = e.fst ∨ isSubPath absPath e.fst)

def GetProtection (repos : Registry) (cwd : List String) (repoPath : GoPath) :
    Option ProtectedRepo :=
  let absPath := goAbs cwd repoPath
  match mapLookup absPath repos with
  | some repo => some repo
  | none => (repos.find? (fun e => isSubPath absPath e.fst)).map (fun e => e.snd)

def Protect (repos : Registry) (cwd : List String) (repoPath : GoPath)
    (password : List Nat) (now : Int) : Registry :=
  let absPath := goAbs cwd repoPath
  let hashedPassword := if password ≠ [] then some (hashPassword password) else none
  mapInsert absPath
    { path := absPath, password := hashedPassword, protectedAt := now, lastAccessed := none }
    repos

/-- `Unprotect`: looks the canonical path up in the map (exact key match
only); a miss is a successful no-op; a stored password must verify or the
call fails with `ErrGitProtected` and the map is untouched; otherwise the
exact entry is deleted.  Result: the new map and the returned error. -/
def Unprotect (repos : Registry) (cwd : List String) (repoPath : GoPath)
    (password : List Nat) : Registry × Option AppError :=
  let absPath := goAbs cwd repoPath
  match mapLookup absPath repos with
  | none => (repos, none)
  | some repo =>
    match repo.password with
    | some h => if verifyPassword password h
        then (mapErase absPath repos, none)
        else (repos, some AppError.gitProtected)
    | none => (mapErase absPath repos, none)

def VerifyAccess (repos : Registry) (cwd : List String) (repoPath : GoPath)
    (password : List Nat) : Bool :=
  match GetProtection repos cwd repoPath with
  | none => true
  | some repo =>
    match repo.password with
    | none => true
    | some h => verifyPassword password h

/-! ## The credential vault (`AccountManager`, version.go)

State: the `accounts` map plus the `current` name (`""` when unset).
`Add` stores the PAT encrypted by the cipher; encryption and the `save`
to disk are modelled as succeeding, with the stored token an explicit
argument (the cipher itself is modelled below, independently).
`Remove` of the current account picks an arbitrary remaining name from
map iteration; the model picks the first entry — every theorem below is
insensitive to that choice. -/

structure Account where
  name : String
  username : String
  email : String
  pat : String
  isDefault : Bool
  createdAt : Int
  updatedAt : Int
deriving DecidableEq

structure AccountManager where
  accounts : List (String × Account)
  current : String
deriving DecidableEq

def AccountManager.empty : AccountManager := { accounts := [], current := "" }

def AccountManager.Add (am : AccountManager) (name username email encryptedPAT : String)
    (now : Int) : Except AppError AccountManager :=
  if (mapLookup name am.accounts).isSome then
    Except.error (AppError.duplicateAccount name)
  else
    let isDef := am.accounts.length = 0
    let acc : Account :=
      { name := name, username := username, email := email, pat := encryptedPAT,
        isDefault := isDef, createdAt := now, updatedAt := now }
    Except.ok
      { accounts := mapInsert name acc am.accounts,
        current := if isDef then name else am.current }

def AccountManager.Remove (am : AccountManager) (name : String) :
    Except AppError AccountManager :=
  if (mapLookup name am.accounts).isNone then
    Except.error AppError.notFound
  else
    let accounts := mapErase name am.accounts
    let current :=
      if am.current = name then
        match accounts with
        | [] => ""
        | (n, _) :: _ => n
      else am.current
    Except.ok { accounts := accounts, current := current }

def AccountManager.Switch (am : AccountManager) (name : String) :
    Except AppError AccountManager :=
  if (mapLookup name am.accounts).isNone then
    Except.error AppError.notFound
  else
    Except.ok
      { accounts := am.accounts.map (fun e => (e.fst, { e.snd with isDefault := e.fst = name })),
        current := name }

def AccountManager.Current (am : AccountManager) : Option Account :=
  if am.current = "" then none else mapLookup am.current am.accounts

/-- Number of accounts whose `is_default` flag is set — the "is-active"
count of the spec. -/
def activeCount (am : AccountManager) : Nat :=
  (am.accounts.filter (fun e => e.snd.isDefault)).length

/-- The concrete operation trace for the vault invariant: add two
identities, then remove the first (and active) one. -/
def vaultTrace : Except AppError AccountManager := do
  let am1 ← AccountManager.empty.Add "a" "user-a" "a@example.com" "tok1" 0
  let am2 ← am1.Add "b" "user-b" "b@example.com" "tok2" 1
  am2.Remove "a"

/-! ## Integer and duration parsing (`strconv.Atoi`, `time.ParseDuration`,
`ParseSize`)

`goAtoi` models `strconv.Atoi`: optional sign, then one or more decimal
digits, nothing else (`none` for a syntax error; on error Go returns the
value `0` alongside the error, which call sites that discard the error
then use).  64-bit range overflow is not modelled: no threshold string in
this development comes near it.  `parseDuration` models
`time.ParseDuration` restricted to integral components — a sign, then one
or more *number unit* pairs with the stdlib unit table, plus the literal
`"0"`; fractional components, which no arngit default or claim uses, are
rejected rather than parsed. -/

def digitsVal (l : List Char) : Nat :=
  l.foldl (fun a c => a * 10 + (c.toNat - 48)) 0

def goAtoiChars : List Char → Option Int
  | [] => none
  | '+' :: rest =>
    if rest ≠ [] ∧ rest.all Char.isDigit then some (digitsVal rest) else none
  | '-' :: rest =>
    if rest ≠ [] ∧ rest.all Char.isDigit then some (-(digitsVal rest : Int)) else none
  | l =>
    if l.all Char.isDigit then some (digitsVal l) else none

def goAtoi (s : String) : Option Int := goAtoiChars s.toList

def durUnit (u : List Char) : Option Int :=
  if u = ['n', 's'] then some 1
  else if u = ['u', 's'] then some 1000
  else if u = ['µ', 's'] then some 1000
  else if u = ['m', 's'] then some 1000000
  else if u = ['s'] then some 1000000000
  else if u = ['m'] then some 60000000000
  else if u = ['h'] then some 3600000000000
  else none

def parseDurAux : Nat → List Char → Option Int
  | _, [] => some 0
  | 0, _ => none
  | fuel + 1, l =>
    let digits := l.takeWhile Char.isDigit
    if digits = [] then none
    else
      let afterDigits := l.dropWhile Char.isDigit
      let unit := afterDigits.takeWhile (fun c => ¬c.isDigit)
      if unit = [] then none
      else
        match durUnit unit with
        | none => none
        | some m =>
          match parseDurAux fuel (afterDigits.dropWhile (fun c => ¬c.isDigit)) with
          | some tail => some ((digitsVal digits : Int) * m + tail)
          | none => none

def parseDuration (s : String) : Option Int :=
  match s.toList with
  | [] => none
  | l =>
    let signBody : Bool × List Char :=
      match l with
      | '-' :: rest => (true, rest)
      | '+' :: rest => (false, rest)
      | _ => (false, l)
    if signBody.snd = ['0'] then some 0
    else if signBody.snd = [] then none
    else (parseDurAux signBody.snd.length signBody.snd).map
      (fun v => if signBody.fst then -v else v)

def trimChars (l : List Char) : List Char :=
  ((l.dropWhile Char.isWhitespace).reverse.dropWhile Char.isWhitespace).reverse

/-- `ParseSize` from the watcher file: trim, upper-case, strip a
`KB`/`MB`/`GB` suffix (powers of 1024), then `strconv.ParseInt` with the
error discarded — an unparsable number contributes `0`. -/
def ParseSize (s : String) : Int :=
  let l := (trimChars s.toList).map Char.toUpper
  let multBody : Int × List Char :=
    match l.reverse with
    | 'B' :: 'K' :: rest => (1024, rest.reverse)
    | 'B' :: 'M' :: rest => (1024 * 1024, rest.reverse)
    | 'B' :: 'G' :: rest => (1024 * 1024 * 1024, rest.reverse)
    | _ => (1, l)
  ((goAtoiChars (trimChars multBody.snd)).getD 0) * multBody.fst

/-! ## The threshold watcher

`WatcherState` is the `Watcher` struct: the five configuration fields,
`lastPushTime`, and whether each late-bound callback field was assigned
(`nil` callbacks are skipped by the loop).  The threshold type is the Go
string (`"commits"` / `"time"` / `"size"`).  A poll observation holds the
answers the git collaborator gives on that tick: the pending-commit
count, the unpushed-changes byte size, the clock reading, and whether the
underlying `git push` would succeed.  Inspection errors, which make
`checkThreshold` return `(false, "")`, are not separately modelled: an
errored poll is simply absent from the observation list. -/

structure WatcherState where
  thresholdType : String
  thresholdValue : String
  interval : Int
  remote : String
  branch : String
  lastPushTime : Int
  onPushSet : Bool
  onErrorSet : Bool
  onSkippedSet : Bool
deriving DecidableEq

structure WatcherConfig where
  thresholdType : String
  thresholdValue : String
  interval : Int
  remote : String
  branch : String
deriving DecidableEq

/-- `NewWatcher`: rejects a non-repository, then fills defaults — branch
from `CurrentBranch`, remote `"origin"`, 10s interval, type `"commits"`,
and a per-type default value.  The threshold value itself is never
parsed or validated here. -/
def NewWatcher (isRepo : Bool) (currentBranch : String) (cfg : WatcherConfig)
    (now : Int) : Option WatcherState :=
  if ¬isRepo then none
  else
    let branch := if cfg.branch = "" then currentBranch else cfg.branch
    let remote := if cfg.remote = "" then "origin" else cfg.remote
    let interval := if cfg.interval = 0 then 10000000000 else cfg.interval
    let ttype := if cfg.thresholdType = "" then "commits" else cfg.thresholdType
    let tvalue :=
      if cfg.thresholdValue = "" then
        if ttype = "commits" then "3"
        else if ttype = "time" then "5m"
        else if ttype = "size" then "1MB"
        else ""
      else cfg.thresholdValue
    some
      { thresholdType := ttype, thresholdValue := tvalue, interval := interval,
        remote := remote, branch := branch, lastPushTime := now,
        onPushSet := false, onErrorSet := false, onSkippedSet := false }

structure PollObs where
  count : Int
  size : Int
  now : Int
  pushOk : Bool
deriving DecidableEq

/-- The non-empty skip/trigger reason strings of `checkThreshold`,
structured (`none` stands for the empty reason `""`). -/
inductive CheckNote where
  | commitsPending (count threshold : Int)
  | commitsProgress (count threshold : Int)
  | timeReached (value : String)
  | sizeReached (size : Int)
deriving DecidableEq

/-- `checkThreshold`: the `commits` branch compares the pending count to
`strconv.Atoi` of the value with the parse error discarded (so a bad
value means threshold `0`); the `time` branch needs elapsed ≥ duration
*and* a positive pending count, and silently does not trigger when the
duration does not parse; the `size` branch compares to `ParseSize`. -/
def checkThreshold (w : WatcherState) (obs : PollObs) : Bool × Option CheckNote :=
  if w.thresholdType = "commits" then
    let threshold := (goAtoi w.thresholdValue).getD 0
    if obs.count ≥ threshold then (true, some (CheckNote.commitsPending obs.count threshold))
    else if obs.count > 0 then (false, some (CheckNote.commitsProgress obs.count threshold))
    else (false, none)
  else if w.thresholdType = "time" then
    match parseDuration w.thresholdValue with
    | none => (false, none)
    | some duration =>
      if obs.now - w.lastPushTime ≥ duration then
        if obs.count > 0 then (true, some (CheckNote.timeReached w.thresholdValue))
        else (false, none)
      else (false, none)
  else if w.thresholdType = "size" then
    if obs.size ≥ ParseSize w.thresholdValue then (true, some (CheckNote.sizeReached obs.size))
    else (false, none)
  else (false, none)

/-- `Service.RepoName`: trim a `.git` suffix off the origin URL and take
the substring after the last `/` — a repository *name*, never an
absolute path (but possibly `""`, `"."` or `".."`). -/
def splitSlashAux : List Char → List (List Char)
  | [] => [[]]
  | c :: rest =>
    let r := splitSlashAux rest
    if c = '/' then [] :: r else (c :: r.headD []) :: r.tail

def repoNameFromURL (url : String) : String :=
  let cs := url.toList
  let trimmed :=
    if cs.drop (cs.length - 4) = ['.', 'g', 'i', 't'] then cs.take (cs.length - 4) else cs
  String.mk ((splitSlashAux trimmed).getLastD [])

inductive WatchError where
  | protectionBlocked
  | pushFailed
deriving DecidableEq

inductive WatchEvent where
  | onPush (remote branch : String) (count : Int)
  | onError (e : WatchError)
  | onSkipped (note : CheckNote)
deriving DecidableEq

/-- `Watcher.push`: asks the registry about `RepoName()` — a bare name
resolved by `filepath.Abs` against the process working directory, not
the repository working path — and refuses with a protection error before
ever reaching `gitSvc.Push`; otherwise runs the push and, on success,
updates `lastPushTime`.  Result: new state, whether `gitSvc.Push` was
invoked, and the returned error. -/
def Watcher.push (repos : Registry) (cwd : List String) (repoName : String)
    (w : WatcherState) (obs : PollObs) : WatcherState × Bool × Option WatchError :=
  if IsProtected repos cwd { absolute := false, segs := [repoName] } then
    (w, false, some WatchError.protectionBlocked)
  else if obs.pushOk then
    ({ w with lastPushTime := obs.now }, true, none)
  else
    (w, true, some WatchError.pushFailed)

structure StepResult where
  w : WatcherState
  attempted : Bool
  executorCalled : Bool
  events : List WatchEvent
deriving DecidableEq

/-- One tick of the `Start` loop: evaluate `checkThreshold`; on a trigger
re-read the pending count and call `push`, reporting the error through
`OnError` or the success through `OnPush` (each only when assigned); on a
non-trigger with a non-empty reason fire `OnSkipped`. -/
def startStep (repos : Registry) (cwd : List String) (repoName : String)
    (w : WatcherState) (obs : PollObs) : StepResult :=
  let check := checkThreshold w obs
  if check.fst then
    let count := obs.count
    let pushed := Watcher.push repos cwd repoName w obs
    match pushed.snd.snd with
    | some e =>
      { w := pushed.fst, attempted := true, executorCalled := pushed.snd.fst,
        events := if w.onErrorSet then [WatchEvent.onError e] else [] }
    | none =>
      { w := pushed.fst, attempted := true, executorCalled := pushed.snd.fst,
        events := if w.onPushSet then [WatchEvent.onPush w.remote w.branch count] else [] }
  else
    match check.snd with
    | some note =>
      { w := w, attempted := false, executorCalled := false,
        events := if w.onSkippedSet then [WatchEvent.onSkipped note] else [] }
    | none => { w := w, attempted := false, executorCalled := false, events := [] }

/-- The `Start` loop over a finite list of poll observations (the loop
runs until cancelled; cancellation after finitely many ticks yields such
a list). -/
def startRun (repos : Registry) (cwd : List String) (repoName : String) :
    WatcherState → List PollObs → List StepResult
  | _, [] => []
  | w, obs :: rest =>
    let r := startStep repos cwd repoName w obs
    r :: startRun repos cwd repoName r.w rest

/-! ## The secret cipher (`encrypt` / `decrypt`, version.go)

Go calls `aes.NewCipher` on the 32-byte machine-derived key and wraps it
in `cipher.NewGCM` (96-bit nonce, 128-bit tag); `encrypt` draws a random
nonce, seals with it as both prefix and IV, and base64-encodes
`nonce ++ ciphertext ++ tag`; `decrypt` reverses the steps.  The random
nonce and the derived key are explicit arguments — both calls of one
process derive the same key.  Bytes are `Nat` values below 256; the AES
block function is the FIPS-197 cipher (S-box from the GF(2^8) inverse and
affine map, 14 rounds, 60-word key schedule), and GCM is the NIST
CTR-plus-GHASH construction the Go library implements. -/

def xtime (b : Nat) : Nat :=
  let s := b * 2
  if s ≥ 256 then (s ^^^ 0x11b) % 256 else s

def gf8mulAux : Nat → Nat → Nat → Nat → Nat
  | 0, _, _, acc => acc
  | n + 1, a, b, acc =>
    gf8mulAux n (xtime a) (b / 2) (if b % 2 = 1 then acc ^^^ a else acc)

def gf8mul (a b : Nat) : Nat := gf8mulAux 8 a b 0

/-- Multiplicative inverse in GF(2^8) as the 254th power (0 maps to 0),
by square-and-multiply: 254 = 2+4+8+16+32+64+128. -/
def gf8inv (a : Nat) : Nat :=
  let a2 := gf8mul a a
  let a4 := gf8mul a2 a2
  let a8 := gf8mul a4 a4
  let a16 := gf8mul a8 a8
  let a32 := gf8mul a16 a16
  let a64 := gf8mul a32 a32
  let a128 := gf8mul a64 a64
  gf8mul a128 (gf8mul a64 (gf8mul a32 (gf8mul a16 (gf8mul a8 (gf8mul a4 a2)))))

def rotl8 (b n : Nat) : Nat := ((b <<< n) ||| (b >>> (8 - n))) % 256

def sbox (x : Nat) : Nat :=
  let i := gf8inv (x % 256)
  (i ^^^ rotl8 i 1 ^^^ rotl8 i 2 ^^^ rotl8 i 3 ^^^ rotl8 i 4 ^^^ 0x63) % 256

def xorBytes (a b : List Nat) : List Nat := List.zipWith (fun x y => x ^^^ y) a b

def subWord (w : List Nat) : List Nat := w.map sbox

def rotWord : List Nat → List Nat
  | [] => []
  | a :: rest => rest ++ [a]

def rconByte : Nat → Nat
  | 0 => 1
  | n + 1 => xtime (rconByte n)

/-- The next word of the AES-256 key schedule, given the words so far
(`i % 8 = 0`: rotate, substitute, round constant; `i % 8 = 4`: the extra
AES-256 substitution). -/
def nextWord (ws : List (List Nat)) : List Nat :=
  let i := ws.length
  let temp := ws.getD (i - 1) []
  let temp :=
    if i % 8 = 0 then xorBytes (subWord (rotWord temp)) [rconByte (i / 8 - 1), 0, 0, 0]
    else if i % 8 = 4 then subWord temp
    else temp
  xorBytes (ws.getD (i - 8) []) temp

def expandFrom : Nat → List (List Nat) → List (List Nat)
  | 0, ws => ws
  | n + 1, ws => expandFrom n (ws ++ [nextWord ws])

/-- AES-256 key expansion: the 8 key words followed by 52 derived words. -/
def keyExpansion (key : List Nat) : List (List Nat) :=
  expandFrom 52 ((List.range 8).map (fun i => ((key.drop (4 * i)).take 4)))

def roundKey (ws : List (List Nat)) (r : Nat) : List Nat :=
  ((ws.drop (4 * r)).take 4).flatten

def subBytes (s : List Nat) : List Nat :=
  (List.range 16).map (fun i => sbox (s.getD i 0))

/-- State bytes live in column-major order (byte `i` is row `i % 4`,
column `i / 4`); row `r` rotates left by `r` columns. -/
def shiftRows (s : List Nat) : List Nat :=
  (List.range 16).map (fun i => s.getD (i % 4 + 4 * ((i / 4 + i % 4) % 4)) 0)

def mixCol (a0 a1 a2 a3 r : Nat) : Nat :=
  if r = 0 then gf8mul 2 a0 ^^^ gf8mul 3 a1 ^^^ a2 ^^^ a3
  else if r = 1 then a0 ^^^ gf8mul 2 a1 ^^^ gf8mul 3 a2 ^^^ a3
  else if r = 2 then a0 ^^^ a1 ^^^ gf8mul 2 a2 ^^^ gf8mul 3 a3
  else gf8mul 3 a0 ^^^ a1 ^^^ a2 ^^^ gf8mul 2 a3

def mixColumns (s : List Nat) : List Nat :=
  (List.range 16).map (fun i =>
    let c := i / 4
    mixCol (s.getD (4 * c) 0) (s.getD (4 * c + 1) 0) (s.getD (4 * c + 2) 0)
      (s.getD (4 * c + 3) 0) (i % 4))

def addRoundKey (s k : List Nat) : List Nat :=
  (List.range 16).map (fun i => s.getD i 0 ^^^ k.getD i 0)

/-- The AES-256 block cipher on a 16-byte block (14 rounds); the final
`% 256` is the byte cast of the Go implementation. -/
def aesCipher (ws : List (List Nat)) (input : List Nat) : List Nat :=
  let s0 := addRoundKey input (roundKey ws 0)
  let s13 := (List.range 13).foldl
    (fun s i => addRoundKey (mixColumns (shiftRows (subBytes s))) (roundKey ws (i + 1))) s0
  (addRoundKey (shiftRows (subBytes s13)) (roundKey ws 14)).map (fun b => b % 256)

def bytesToNatBE (l : List Nat) : Nat :=
  l.foldl (fun acc b => acc * 256 + b % 256) 0

def natToBytesBE (len n : Nat) : List Nat :=
  (List.range len).map (fun i => n / 256 ^ (len - 1 - i) % 256)

/-- GCM multiplication in GF(2^128) (NIST SP 800-38D algorithm 1: the
bits of `x` drive the accumulation, `v` is reduced with the reflected
polynomial `0xe1 << 120`). -/
def gf128mulAux : Nat → Nat → Nat → Nat → Nat
  | 0, _, _, z => z
  | n + 1, x, v, z =>
    gf128mulAux n (x * 2 % 2 ^ 128)
      (if v % 2 = 1 then v / 2 ^^^ 0xe1 <<< 120 else v / 2)
      (if x.testBit 127 then z ^^^ v else z)

def gf128mul (x y : Nat) : Nat := gf128mulAux 128 x y 0

def ghashBlocks (h : Nat) : Nat → List (List Nat) → Nat
  | y, [] => y
  | y, b :: bs => ghashBlocks h (gf128mul (y ^^^ bytesToNatBE b) h) bs

def chunks16Aux : Nat → List Nat → List (List Nat)
  | 0, _ => []
  | _, [] => []
  | fuel + 1, l => l.take 16 :: chunks16Aux fuel (l.drop 16)

def chunks16 (l : List Nat) : List (List Nat) := chunks16Aux l.length l

def pad16 (l : List Nat) : List Nat :=
  l ++ List.replicate ((16 - l.length % 16) % 16) 0

def inc32 (block : List Nat) : List Nat :=
  block.take 12 ++ natToBytesBE 4 ((bytesToNatBE (block.drop 12) + 1) % 2 ^ 32)

def ctrBlocks (ws : List (List Nat)) : Nat → List Nat → List Nat
  | 0, _ => []
  | m + 1, c =>
    let c1 := inc32 c
    aesCipher ws c1 ++ ctrBlocks ws m c1

def ctrKeystream (ws : List (List Nat)) (j0 : List Nat) (n : Nat) : List Nat :=
  (ctrBlocks ws ((n + 15) / 16) j0).take n

/-- The GHASH tag over an empty AAD: hash the padded ciphertext followed
by the 128-bit length block, then mask with `E(J0)`. -/
def gcmTag (ws : List (List Nat)) (j0 ct : List Nat) : List Nat :=
  let h := bytesToNatBE (aesCipher ws (List.replicate 16 0))
  let lenBlock := natToBytesBE 8 0 ++ natToBytesBE 8 (ct.length * 8)
  let s := ghashBlocks h 0 (chunks16 (pad16 ct) ++ [lenBlock])
  (xorBytes (natToBytesBE 16 s) (aesCipher ws j0)).map (fun b => b % 256)

/-- `gcm.Seal(nil, nonce, pt, nil)` for a 12-byte nonce:
`ciphertext ++ tag`. -/
def gcmSeal (key nonce pt : List Nat) : List Nat :=
  let ws := keyExpansion key
  let j0 := nonce ++ [0, 0, 0, 1]
  let ct := xorBytes pt (ctrKeystream ws j0 pt.length)
  ct ++ gcmTag ws j0 ct

/-- `gcm.Open(nil, nonce, data, nil)`: reject anything shorter than the
tag, split off the tag, recompute it, and decrypt only on a match. -/
def gcmOpen (key nonce data : List Nat) : Option (List Nat) :=
  if data.length < 16 then none
  else
    let ws := keyExpansion key
    let j0 := nonce ++ [0, 0, 0, 1]
    let ct := data.take (data.length - 16)
    let tag := data.drop (data.length - 16)
    if gcmTag ws j0 ct = tag then some (xorBytes ct (ctrKeystream ws j0 ct.length))
    else none

/-! ### Base64 (`encoding/base64` `StdEncoding`)

Standard alphabet with `=` padding.  The decoder accepts what
`DecodeString` accepts on the tokens this cipher produces; the stdlib
extras (skipping CR/LF, ignoring non-zero trailing padding bits) never
arise on an encoder output and are outside the model. -/

def b64alphabet : List Char :=
  "ABCDEFGHIJKLMNOPQRSTUVWXYZabcdefghijklmnopqrstuvwxyz0123456789+/".toList

def b64char (i : Nat) : Char := b64alphabet.getD i 'A'

def b64index (c : Char) : Option Nat := b64alphabet.findIdx? (fun a => a = c)

def b64encode : List Nat → List Char
  | [] => []
  | [a] => [b64char (a / 4), b64char (a % 4 * 16), '=', '=']
  | [a, b] => [b64char (a / 4), b64char (a % 4 * 16 + b / 16), b64char (b % 16 * 4), '=']
  | a :: b :: c :: rest =>
    b64char (a / 4) :: b64char (a % 4 * 16 + b / 16) :: b64char (b % 16 * 4 + c / 64) ::
      b64char (c % 64) :: b64encode rest

def b64decode : List Char → Option (List Nat)
  | [] => some []
  | c1 :: c2 :: c3 :: c4 :: rest =>
    match b64index c1, b64index c2 with
    | some a, some b =>
      if c3 = '=' then
        if c4 = '=' ∧ rest = [] then some [a * 4 + b / 16] else none
      else
        match b64index c3 with
        | some c =>
          if c4 = '=' then
            if rest = [] then some [a * 4 + b / 16, b % 16 * 16 + c / 4] else none
          else
            match b64index c4 with
            | some d =>
              match b64decode rest with
              | some tail =>
                some ((a * 4 + b / 16) :: (b % 16 * 16 + c / 4) :: (c % 4 * 64 + d) :: tail)
              | none => none
            | none => none
        | none => none
    | _, _ => none
  | _ => none

/-- `encrypt`: seal under a fresh 12-byte nonce with the nonce as the
destination prefix, then base64 (`base64.StdEncoding.EncodeToString`). -/
def encrypt (key nonce pt : List Nat) : List Char :=
  b64encode (nonce ++ gcmSeal key nonce pt)

/-- `decrypt`: base64-decode, demand at least a nonce, split it off, and
open; every failure is an error (`none`). -/
def decrypt (key : List Nat) (token : List Char) : Option (List Nat) :=
  match b64decode token with
  | none => none
  | some data =>
    if data.length < 12 then none
    else gcmOpen key (data.take 12) (data.drop 12)

/-- Rune scalar values of the password `"secret"` of the spec examples. -/
def secretRunes : List Nat := [115, 101, 99, 114, 101, 116]

/-- Rune scalar values of the password `"wrong"` of the spec examples. -/
def wrongRunes : List Nat := [119, 114, 111, 110, 103]

/-! # Theorems -/

theorem mapLookup_mapInsert {κ ν : Type} [DecidableEq κ] (k : κ) (v : ν)
    (m : List (κ × ν)) : mapLookup k (mapInsert k v m) = some v := by
  induction m with
  | nil => simp [mapLookup, mapInsert]
  | cons e rest ih =>
    obtain ⟨k₁, v₁⟩ := e
    by_cases h : k₁ = k <;> simp [mapLookup, mapInsert, h, ih]

/-- C10: the registry's password hash collapses the 64-bit accumulator to a
single rune (out-of-range values become U+FFFD), so distinct passwords
collide; in fact the spec's own example pair collides — the hash of
`"secret"` and of `"wrong"` are both U+FFFD — and `verifyPassword`
accepts `"wrong"` against the hash stored for `"secret"`. -/
theorem C10_hash_collision :
    (∃ p1 p2 : List Nat, p1 ≠ p2 ∧ hashPassword p1 = hashPassword p2) ∧
    hashPassword secretRunes = hashPassword wrongRunes ∧
    verifyPassword wrongRunes (hashPassword secretRunes) = true :=
  ⟨⟨secretRunes, wrongRunes, by decide, by decide⟩, by decide, by decide⟩

/-- C4 (amended): `Protect` never fails and always stores a fresh Guard
under the canonical path, overwriting any existing Guard there —
including its stored password hash. -/
theorem C4_protect_overwrites (repos : Registry) (cwd : List String) (p : GoPath)
    (password : List Nat) (now : Int) :
    mapLookup (goAbs cwd p) (Protect repos cwd p password now) =
      some { path := goAbs cwd p,
             password := if password ≠ [] then some (hashPassword password) else none,
             protectedAt := now, lastAccessed := none } := by
  unfold Protect
  exact mapLookup_mapInsert _ _ _

/-- C4, the claim as frozen, refuted: protecting `/a/b` with `"secret"`
and then protecting `/a/b` again with `"a"` does not fail — it returns
the updated registry in which the stored hash has silently become the
hash of `"a"` (97) in place of the hash of `"secret"` (65533). -/
theorem C4_counterexample :
    Protect (Protect [] [] { absolute := true, segs := ["a", "b"] } secretRunes 0)
        [] { absolute := true, segs := ["a", "b"] } [97] 1 =
      [(["a", "b"],
        { path := ["a", "b"], password := some 97, protectedAt := 1,
          lastAccessed := none })] ∧
    hashPassword secretRunes = 65533 := by decide

/-- C3 (amended): when no Guard sits at the exact canonical path —
regardless of whether an ancestor Guard covers it — `Unprotect` succeeds
as a no-op: the registry is returned unchanged, so the protection status
of the path is unchanged too.  The covering ancestor is never consulted
and never removed. -/
theorem C3_unprotect_exact_only (repos : Registry) (cwd : List String) (p : GoPath)
    (password : List Nat) (h : mapLookup (goAbs cwd p) repos = none) :
    Unprotect repos cwd p password = (repos, none) ∧
    IsProtected (Unprotect repos cwd p password).fst cwd p = IsProtected repos cwd p := by
  have h1 : Unprotect repos cwd p password = (repos, none) := by
    simp only [Unprotect, h]
  exact ⟨h1, by rw [h1]⟩

/-- Witness for C3: the empty registry misses every lookup, and the
theorem instantiates to a concrete no-op unprotect. -/
theorem C3_witness :
    mapLookup (goAbs [] { absolute := true, segs := ["q"] }) ([] : Registry) = none ∧
    Unprotect ([] : Registry) [] { absolute := true, segs := ["q"] } [] = ([], none) :=
  ⟨by decide,
   (C3_unprotect_exact_only [] [] { absolute := true, segs := ["q"] } [] (by decide)).1⟩

/-- C3, the claim as frozen, refuted: with a Guard at `/a/b`, the path
`/a/b/c` is covered (`GetProtection` finds the ancestor Guard and
`IsProtected` is true), yet a successful `unprotect("/a/b/c", "")`
removes nothing — the exact-match lookup misses, the ancestor Guard
survives, and the path is still protected afterwards. -/
theorem C3_counterexample :
    (GetProtection
        [(["a", "b"],
          { path := ["a", "b"], password := none, protectedAt := 0, lastAccessed := none })]
        [] { absolute := true, segs := ["a", "b", "c"] }).isSome = true ∧
    Unprotect
        [(["a", "b"],
          { path := ["a", "b"], password := none, protectedAt := 0, lastAccessed := none })]
        [] { absolute := true, segs := ["a", "b", "c"] } [] =
      ([(["a", "b"],
          { path := ["a", "b"], password := none, protectedAt := 0, lastAccessed := none })],
        none) ∧
    IsProtected
        [(["a", "b"],
          { path := ["a", "b"], password := none, protectedAt := 0, lastAccessed := none })]
        [] { absolute := true, segs := ["a", "b", "c"] } = true := by decide

/-- C6 (amended): with a password-bearing Guard at the exact canonical
path, a non-verifying password makes `Unprotect` fail with the
`GIT_PROTECTED` error and return the registry untouched, while a
verifying password removes exactly that Guard; the path then reports
unprotected *when that Guard was the whole registry* (another Guard can
still cover it). -/
theorem C6_password_gate (repos : Registry) (cwd : List String) (p : GoPath)
    (guard : ProtectedRepo) (h : Nat) (wrong correct : List Nat)
    (hlook : mapLookup (goAbs cwd p) repos = some guard)
    (hpw : guard.password = some h)
    (hwrong : verifyPassword wrong h = false)
    (hcorrect : verifyPassword correct h = true) :
    Unprotect repos cwd p wrong = (repos, some AppError.gitProtected) ∧
    Unprotect repos cwd p correct = (mapErase (goAbs cwd p) repos, none) ∧
    (repos = [(goAbs cwd p, guard)] →
      IsProtected (Unprotect repos cwd p correct).fst cwd p = false) := by
  have h1 : Unprotect repos cwd p wrong = (repos, some AppError.gitProtected) := by
    simp only [Unprotect, hlook, hpw, hwrong]
    rfl
  have h2 : Unprotect repos cwd p correct = (mapErase (goAbs cwd p) repos, none) := by
    simp only [Unprotect, hlook, hpw, hcorrect]
    rfl
  refine ⟨h1, h2, fun hsingle => ?_⟩
  rw [h2]
  have : mapErase (goAbs cwd p) repos = [] := by
    rw [hsingle]
    simp [mapErase]
  rw [this]
  rfl

/-- Witness for C6: a lone password-guard at `/a/b`; `"a"` does not
verify and is refused, `"secret"` verifies and unprotects fully. -/
theorem C6_witness :
    Unprotect
        [(["a", "b"],
          { path := ["a", "b"], password := some 65533, protectedAt := 0,
            lastAccessed := none })]
        [] { absolute := true, segs := ["a", "b"] } [97] =
      ([(["a", "b"],
          { path := ["a", "b"], password := some 65533, protectedAt := 0,
            lastAccessed := none })],
        some AppError.gitProtected) ∧
    IsProtected
        (Unprotect
          [(["a", "b"],
            { path := ["a", "b"], password := some 65533, protectedAt := 0,
              lastAccessed := none })]
          [] { absolute := true, segs := ["a", "b"] } secretRunes).fst
        [] { absolute := true, segs := ["a", "b"] } = false := by
  have h := C6_password_gate
    [(["a", "b"],
      { path := ["a", "b"], password := some 65533, protectedAt := 0, lastAccessed := none })]
    [] { absolute := true, segs := ["a", "b"] }
    { path := ["a", "b"], password := some 65533, protectedAt := 0, lastAccessed := none }
    65533 [97] secretRunes (by decide) (by decide) (by decide) (by decide)
  exact ⟨h.1, h.2.2 (by decide)⟩

/-- C6, the claim as frozen, refuted on its final conjunct: with a second
Guard present (here at `/x/y`), `unprotect("/a/b", "secret")` succeeds
and removes the `/a/b` Guard, yet `isProtected("/a/b")` is still true —
the surviving `/x/y` Guard covers it through the `filepath.Rel`-based
`isSubPath` test. -/
theorem C6_counterexample :
    (Unprotect
        [(["a", "b"],
          { path := ["a", "b"], password := some 65533, protectedAt := 0,
            lastAccessed := none }),
         (["x", "y"],
          { path := ["x", "y"], password := none, protectedAt := 0, lastAccessed := none })]
        [] { absolute := true, segs := ["a", "b"] } secretRunes).snd = none ∧
    IsProtected
        (Unprotect
          [(["a", "b"],
            { path := ["a", "b"], password := some 65533, protectedAt := 0,
              lastAccessed := none }),
           (["x", "y"],
            { path := ["x", "y"], password := none, protectedAt := 0, lastAccessed := none })]
          [] { absolute := true, segs := ["a", "b"] } secretRunes).fst
        [] { absolute := true, segs := ["a", "b"] } = true := by decide

/-- C1: after `add("a")`, `add("b")`, `remove("a")` the vault holds one
identity, but `Remove` reassigned only the in-memory `current` pointer
and left the `is_default` flag of the survivor false: zero identities
have is-active = true, where the claim demands exactly one. -/
theorem C1_remove_loses_active_flag :
    vaultTrace = Except.ok
      { accounts := [("b",
          { name := "b", username := "user-b", email := "b@example.com", pat := "tok2",
            isDefault := false, createdAt := 1, updatedAt := 1 })],
        current := "b" } ∧
    activeCount
      { accounts := [("b",
          { name := "b", username := "user-b", email := "b@example.com", pat := "tok2",
            isDefault := false, createdAt := 1, updatedAt := 1 })],
        current := "b" } = 0 :=
  ⟨rfl, rfl⟩

/-! ### Watcher loop lemmas -/

theorem startStep_attempted (repos : Registry) (cwd : List String) (repoName : String)
    (w : WatcherState) (obs : PollObs) :
    (startStep repos cwd repoName w obs).attempted = (checkThreshold w obs).fst := by
  unfold startStep Watcher.push
  by_cases h1 : (checkThreshold w obs).fst <;>
    by_cases h2 : IsProtected repos cwd { absolute := false, segs := [repoName] } <;>
    by_cases h3 : obs.pushOk <;>
    simp [h1, h2, h3] <;>
    cases (checkThreshold w obs).snd <;> simp

theorem startStep_w_threshold (repos : Registry) (cwd : List String) (repoName : String)
    (w : WatcherState) (obs : PollObs) :
    (startStep repos cwd repoName w obs).w.thresholdType = w.thresholdType ∧
    (startStep repos cwd repoName w obs).w.thresholdValue = w.thresholdValue := by
  unfold startStep Watcher.push
  by_cases h1 : (checkThreshold w obs).fst <;>
    by_cases h2 : IsProtected repos cwd { absolute := false, segs := [repoName] } <;>
    by_cases h3 : obs.pushOk <;>
    simp [h1, h2, h3] <;>
    cases (checkThreshold w obs).snd <;> simp

theorem checkThreshold_commits (w : WatcherState) (obs : PollObs) (t : Int)
    (htype : w.thresholdType = "commits") (hval : goAtoi w.thresholdValue = some t) :
    (checkThreshold w obs).fst = decide (t ≤ obs.count) := by
  simp only [checkThreshold, htype, hval]
  by_cases h : t ≤ obs.count
  · simp [h]
  · by_cases h0 : obs.count > 0 <;> simp [h, h0]

/-- C8: under the `commits` trigger with a threshold value that parses to
`t`, the `Start` loop attempts a publish on exactly the polls whose
pending-commit count is at least `t` — pointwise over any run, hence in
particular on the first poll where a rising count reaches `t` and on no
earlier one. -/
theorem C8_commit_trigger_exact (repos : Registry) (cwd : List String)
    (repoName : String) (t : Int) (obsList : List PollObs) (w : WatcherState)
    (htype : w.thresholdType = "commits") (hval : goAtoi w.thresholdValue = some t) :
    (startRun repos cwd repoName w obsList).map (fun r => r.attempted) =
      obsList.map (fun o => decide (t ≤ o.count)) := by
  induction obsList generalizing w with
  | nil => rfl
  | cons o rest ih =>
    have hw := startStep_w_threshold repos cwd repoName w o
    simp only [startRun, List.map_cons]
    rw [startStep_attempted, checkThreshold_commits w o t htype hval,
      ih _ (hw.1.trans htype) (by rw [hw.2]; exact hval)]

/-- Witness for C8: threshold `"3"` over pending counts 1, 2, 3 attempts
the publish exactly on the third poll. -/
theorem C8_witness :
    goAtoi "3" = some 3 ∧
    (startRun [] [] "repo"
        { thresholdType := "commits", thresholdValue := "3", interval := 10000000000,
          remote := "origin", branch := "main", lastPushTime := 0,
          onPushSet := true, onErrorSet := true, onSkippedSet := true }
        [{ count := 1, size := 0, now := 1, pushOk := true },
         { count := 2, size := 0, now := 2, pushOk := true },
         { count := 3, size := 0, now := 3, pushOk := true }]).map
        (fun r => r.attempted) = [false, false, true] := by
  have h := C8_commit_trigger_exact [] [] "repo" 3
    [{ count := 1, size := 0, now := 1, pushOk := true },
     { count := 2, size := 0, now := 2, pushOk := true },
     { count := 3, size := 0, now := 3, pushOk := true }]
    { thresholdType := "commits", thresholdValue := "3", interval := 10000000000,
      remote := "origin", branch := "main", lastPushTime := 0,
      onPushSet := true, onErrorSet := true, onSkippedSet := true }
    rfl (by decide)
  exact ⟨by decide, by rw [h]; decide⟩

/-- C7: under the `time` trigger with a threshold value parsing to the
duration `d`, a poll triggers only when the elapsed time since the last
successful publish is at least `d` *and* at least one commit is pending —
so with zero pending commits it never triggers, however much time has
passed. -/
theorem C7_time_trigger_needs_commits (w : WatcherState) (obs : PollObs) (d : Int)
    (htype : w.thresholdType = "time")
    (hdur : parseDuration w.thresholdValue = some d)
    (htrig : (checkThreshold w obs).fst = true) :
    d ≤ obs.now - w.lastPushTime ∧ 1 ≤ obs.count := by
  simp only [checkThreshold, htype, hdur] at htrig
  by_cases h1 : obs.now - w.lastPushTime ≥ d
  · by_cases h2 : obs.count > 0
    · exact ⟨h1, h2⟩
    · simp [h1, h2] at htrig
  · simp [h1] at htrig

/-- Witness for C7: a five-minute threshold, 301 elapsed seconds and one
pending commit trigger; the theorem then bounds elapsed and count. -/
theorem C7_witness :
    parseDuration "5m" = some 300000000000 ∧
    (checkThreshold
        { thresholdType := "time", thresholdValue := "5m", interval := 10000000000,
          remote := "origin", branch := "main", lastPushTime := 0,
          onPushSet := false, onErrorSet := false, onSkippedSet := false }
        { count := 1, size := 0, now := 301000000000, pushOk := true }).fst = true ∧
    (300000000000 : Int) ≤ 301000000000 - 0 ∧ (1 : Int) ≤ 1 := by
  refine ⟨by decide, by decide, ?_⟩
  exact C7_time_trigger_needs_commits
    { thresholdType := "time", thresholdValue := "5m", interval := 10000000000,
      remote := "origin", branch := "main", lastPushTime := 0,
      onPushSet := false, onErrorSet := false, onSkippedSet := false }
    { count := 1, size := 0, now := 301000000000, pushOk := true }
    300000000000 rfl (by decide) (by decide)

/-- C5 (amended): neither construction nor the poll loop validates the
trigger value and no `ConfigParseError` exists anywhere; in the `commits`
branch a value `strconv.Atoi` rejects is silently used as threshold `0`,
so the trigger fires on every poll whose (non-negative) count is read. -/
theorem C5_bad_value_is_zero (w : WatcherState) (obs : PollObs)
    (htype : w.thresholdType = "commits")
    (hbad : goAtoi w.thresholdValue = none) :
    (checkThreshold w obs).fst = decide (0 ≤ obs.count) := by
  simp only [checkThreshold, htype, hbad]
  by_cases h : (0 : Int) ≤ obs.count
  · simp [h]
  · by_cases h0 : obs.count > 0 <;> simp [h, h0]

/-- Witness for C5: the unparsable value `"abc"` with zero pending
commits still satisfies the threshold-0 trigger condition. -/
theorem C5_witness :
    goAtoi "abc" = none ∧
    (checkThreshold
        { thresholdType := "commits", thresholdValue := "abc", interval := 10000000000,
          remote := "origin", branch := "main", lastPushTime := 0,
          onPushSet := false, onErrorSet := false, onSkippedSet := false }
        { count := 0, size := 0, now := 0, pushOk := true }).fst = decide ((0 : Int) ≤ 0) :=
  ⟨by decide,
   C5_bad_value_is_zero
     { thresholdType := "commits", thresholdValue := "abc", interval := 10000000000,
       remote := "origin", branch := "main", lastPushTime := 0,
       onPushSet := false, onErrorSet := false, onSkippedSet := false }
     { count := 0, size := 0, now := 0, pushOk := true } rfl (by decide)⟩

/-- C5, the claim as frozen, refuted: `NewWatcher` happily constructs a
watcher whose commit-count value is the unparsable `"abc"` (no
`ConfigParseError` is raised), and the very first poll — with *zero*
pending commits — already triggers a publish, because the discarded
`Atoi` error leaves threshold `0`. -/
theorem C5_counterexample :
    NewWatcher true "main"
        { thresholdType := "commits", thresholdValue := "abc", interval := 0,
          remote := "", branch := "" } 0 =
      some
        { thresholdType := "commits", thresholdValue := "abc", interval := 10000000000,
          remote := "origin", branch := "main", lastPushTime := 0,
          onPushSet := false, onErrorSet := false, onSkippedSet := false } ∧
    goAtoi "abc" = none ∧
    (checkThreshold
        { thresholdType := "commits", thresholdValue := "abc", interval := 10000000000,
          remote := "origin", branch := "main", lastPushTime := 0,
          onPushSet := false, onErrorSet := false, onSkippedSet := false }
        { count := 0, size := 0, now := 0, pushOk := true }).fst = true := by decide

/-- C2 (amended): what a triggered poll consults the Registry about is
`filepath.Abs(RepoName())` — the repo name taken from the origin URL and
resolved against the *process working directory* — not the repository's
canonical working path.  Whenever the Registry reports that resolved
path protected, the cycle never invokes the publish executor, `push`
fails with the protection error, and the error reaches the `OnError`
callback when one is assigned (the state is untouched). -/
theorem C2_protection_short_circuit (repos : Registry) (cwd : List String)
    (repoName : String) (w : WatcherState) (obs : PollObs)
    (hprot : IsProtected repos cwd { absolute := false, segs := [repoName] } = true)
    (herr : w.onErrorSet = true)
    (htrig : (checkThreshold w obs).fst = true) :
    (startStep repos cwd repoName w obs).executorCalled = false ∧
    (startStep repos cwd repoName w obs).events =
      [WatchEvent.onError WatchError.protectionBlocked] ∧
    (startStep repos cwd repoName w obs).w = w := by
  unfold startStep Watcher.push
  simp [htrig, hprot, herr]

/-- Witness for C2: a guard exactly at the path the poll resolves makes
the triggered cycle skip the executor and fire the error callback. -/
theorem C2_witness :
    IsProtected
        [(["h"], { path := ["h"], password := none, protectedAt := 0, lastAccessed := none })]
        [] { absolute := false, segs := ["h"] } = true ∧
    (startStep
        [(["h"], { path := ["h"], password := none, protectedAt := 0, lastAccessed := none })]
        [] "h"
        { thresholdType := "commits", thresholdValue := "1", interval := 10000000000,
          remote := "origin", branch := "main", lastPushTime := 0,
          onPushSet := true, onErrorSet := true, onSkippedSet := true }
        { count := 1, size := 0, now := 5, pushOk := true }).executorCalled = false ∧
    (startStep
        [(["h"], { path := ["h"], password := none, protectedAt := 0, lastAccessed := none })]
        [] "h"
        { thresholdType := "commits", thresholdValue := "1", interval := 10000000000,
          remote := "origin", branch := "main", lastPushTime := 0,
          onPushSet := true, onErrorSet := true, onSkippedSet := true }
        { count := 1, size := 0, now := 5, pushOk := true }).events =
      [WatchEvent.onError WatchError.protectionBlocked] := by
  have h := C2_protection_short_circuit
    [(["h"], { path := ["h"], password := none, protectedAt := 0, lastAccessed := none })]
    [] "h"
    { thresholdType := "commits", thresholdValue := "1", interval := 10000000000,
      remote := "origin", branch := "main", lastPushTime := 0,
      onPushSet := true, onErrorSet := true, onSkippedSet := true }
    { count := 1, size := 0, now := 5, pushOk := true }
    (by decide) rfl (by decide)
  exact ⟨by decide, h.1, h.2.1⟩

/-- C2, the claim as frozen, refuted: the Registry *does* report the
canonical working path `/home/u` protected (a guard sits at
`/home/u/repo/sub`, and the `filepath.Rel`-based `isSubPath` lets it
cover `/home/u`), the origin URL is the ordinary
`https://host/repo.git`, a triggered poll runs — and the publish
executor *is* invoked with no error reported: the code asked about
`/home/u/repo` (cwd + repo name), which that same guard fails to cover,
since `filepath.Rel` yields the excluded `".."` exactly there. -/
theorem C2_counterexample :
    IsProtected
        [(["home", "u", "repo", "sub"],
          { path := ["home", "u", "repo", "sub"], password := none, protectedAt := 0,
            lastAccessed := none })]
        ["home", "u"] { absolute := true, segs := ["home", "u"] } = true ∧
    repoNameFromURL "https://host/repo.git" = "repo" ∧
    (startStep
        [(["home", "u", "repo", "sub"],
          { path := ["home", "u", "repo", "sub"], password := none, protectedAt := 0,
            lastAccessed := none })]
        ["home", "u"] "repo"
        { thresholdType := "commits", thresholdValue := "1", interval := 10000000000,
          remote := "origin", branch := "main", lastPushTime := 0,
          onPushSet := true, onErrorSet := true, onSkippedSet := true }
        { count := 5, size := 0, now := 7, pushOk := true }).attempted = true ∧
    (startStep
        [(["home", "u", "repo", "sub"],
          { path := ["home", "u", "repo", "sub"], password := none, protectedAt := 0,
            lastAccessed := none })]
        ["home", "u"] "repo"
        { thresholdType := "commits", thresholdValue := "1", interval := 10000000000,
          remote := "origin", branch := "main", lastPushTime := 0,
          onPushSet := true, onErrorSet := true, onSkippedSet := true }
        { count := 5, size := 0, now := 7, pushOk := true }).executorCalled = true ∧
    (startStep
        [(["home", "u", "repo", "sub"],
          { path := ["home", "u", "repo", "sub"], password := none, protectedAt := 0,
            lastAccessed := none })]
        ["home", "u"] "repo"
        { thresholdType := "commits", thresholdValue := "1", interval := 10000000000,
          remote := "origin", branch := "main", lastPushTime := 0,
          onPushSet := true, onErrorSet := true, onSkippedSet := true }
        { count := 5, size := 0, now := 7, pushOk := true }).events =
      [WatchEvent.onPush "origin" "main" 5] := by decide

theorem b64index_b64char : ∀ s, s < 64 → b64index (b64char s) = some s := by decide

theorem b64char_ne_pad : ∀ s, s < 64 → ¬(b64char s = '=') := by decide

theorem b64decode_b64encode :
    ∀ l : List Nat, (∀ b ∈ l, b < 256) → b64decode (b64encode l) = some l := by
  intro l
  induction l using b64encode.induct with
  | case1 =>
    intro _
    rfl
  | case2 a =>
    intro hb
    have ha : a < 256 := hb a (by simp)
    simp [b64encode, b64decode,
      b64index_b64char (a / 4) (by omega),
      b64index_b64char (a % 4 * 16) (by omega)]
    omega
  | case3 a b =>
    intro hb
    have ha : a < 256 := hb a (by simp)
    have hbb : b < 256 := hb b (by simp)
    simp [b64encode, b64decode,
      b64index_b64char (a / 4) (by omega),
      b64index_b64char (a % 4 * 16 + b / 16) (by omega),
      b64index_b64char (b % 16 * 4) (by omega),
      b64char_ne_pad (b % 16 * 4) (by omega)]
    omega
  | case4 a b c rest ih =>
    intro hb
    have ha : a < 256 := hb a (by simp)
    have hbb : b < 256 := hb b (by simp)
    have hc : c < 256 := hb c (by simp)
    have hrest : ∀ x ∈ rest, x < 256 := fun x hx => hb x (by simp [hx])
    simp [b64encode, b64decode,
      b64index_b64char (a / 4) (by omega),
      b64index_b64char (a % 4 * 16 + b / 16) (by omega),
      b64index_b64char (b % 16 * 4 + c / 64) (by omega),
      b64index_b64char (c % 64) (by omega),
      b64char_ne_pad (b % 16 * 4 + c / 64) (by omega),
      b64char_ne_pad (c % 64) (by omega),
      ih hrest]
    omega

theorem natToBytesBE_length (len n : Nat) : (natToBytesBE len n).length = len := by
  simp [natToBytesBE]

theorem aesCipher_length (ws : List (List Nat)) (input : List Nat) :
    (aesCipher ws input).length = 16 := by
  simp [aesCipher, addRoundKey]

theorem aesCipher_lt (ws : List (List Nat)) (input : List Nat) :
    ∀ b ∈ aesCipher ws input, b < 256 := by
  intro b hb
  simp only [aesCipher, List.mem_map] at hb
  obtain ⟨a, _, rfl⟩ := hb
  exact Nat.mod_lt _ (by norm_num)

theorem ctrBlocks_length (ws : List (List Nat)) (m : Nat) (c : List Nat) :
    (ctrBlocks ws m c).length = 16 * m := by
  induction m generalizing c with
  | zero => rfl
  | succ k ih => simp [ctrBlocks, aesCipher_length, ih]; ring

theorem ctrBlocks_lt (ws : List (List Nat)) (m : Nat) (c : List Nat) :
    ∀ b ∈ ctrBlocks ws m c, b < 256 := by
  induction m generalizing c with
  | zero => simp [ctrBlocks]
  | succ k ih =>
    intro b hb
    simp only [ctrBlocks, List.mem_append] at hb
    rcases hb with h | h
    · exact aesCipher_lt _ _ b h
    · exact ih _ b h

theorem ctrKeystream_length (ws : List (List Nat)) (j0 : List Nat) (n : Nat) :
    (ctrKeystream ws j0 n).length = n := by
  simp [ctrKeystream, ctrBlocks_length]
  omega

theorem ctrKeystream_lt (ws : List (List Nat)) (j0 : List Nat) (n : Nat) :
    ∀ b ∈ ctrKeystream ws j0 n, b < 256 :=
  fun b hb => ctrBlocks_lt ws _ j0 b (List.mem_of_mem_take hb)

theorem xorBytes_length (a b : List Nat) :
    (xorBytes a b).length = min a.length b.length := by
  simp [xorBytes]

theorem xorBytes_lt (a b : List Nat) (ha : ∀ x ∈ a, x < 256) (hb : ∀ x ∈ b, x < 256) :
    ∀ x ∈ xorBytes a b, x < 256 := by
  induction a generalizing b with
  | nil => simp [xorBytes]
  | cons p ps ih =>
    cases b with
    | nil => simp [xorBytes]
    | cons q qs =>
      intro x hx
      simp only [xorBytes, List.zipWith_cons_cons, List.mem_cons] at hx
      rcases hx with rfl | hx
      · have h1 : p < 2 ^ 8 := ha p (by simp)
        have h2 : q < 2 ^ 8 := hb q (by simp)
        exact Nat.xor_lt_two_pow h1 h2
      · exact ih qs (fun y hy => ha y (List.mem_cons_of_mem _ hy))
          (fun y hy => hb y (List.mem_cons_of_mem _ hy)) x hx

theorem xorBytes_cancel (a b : List Nat) (h : a.length ≤ b.length) :
    xorBytes (xorBytes a b) b = a := by
  induction a generalizing b with
  | nil => simp [xorBytes]
  | cons p ps ih =>
    cases b with
    | nil => simp at h
    | cons q qs =>
      simp only [xorBytes, List.zipWith_cons_cons]
      rw [Nat.xor_assoc, Nat.xor_self, Nat.xor_zero]
      have := ih qs (by simpa using h)
      simp only [xorBytes] at this
      rw [this]

theorem gcmTag_length (ws : List (List Nat)) (j0 ct : List Nat) :
    (gcmTag ws j0 ct).length = 16 := by
  simp [gcmTag, xorBytes, natToBytesBE, aesCipher_length]

theorem gcmTag_lt (ws : List (List Nat)) (j0 ct : List Nat) :
    ∀ b ∈ gcmTag ws j0 ct, b < 256 := by
  intro b hb
  simp only [gcmTag, List.mem_map] at hb
  obtain ⟨a, _, rfl⟩ := hb
  exact Nat.mod_lt _ (by norm_num)

theorem gcmSeal_length (key nonce pt : List Nat) :
    (gcmSeal key nonce pt).length = pt.length + 16 := by
  simp [gcmSeal, xorBytes_length, ctrKeystream_length, gcmTag_length]

theorem gcmSeal_lt (key nonce pt : List Nat) (hpt : ∀ b ∈ pt, b < 256) :
    ∀ b ∈ gcmSeal key nonce pt, b < 256 := by
  intro b hb
  simp only [gcmSeal, List.mem_append] at hb
  rcases hb with h | h
  · exact xorBytes_lt _ _ hpt (ctrKeystream_lt _ _ _) b h
  · exact gcmTag_lt _ _ _ b h

theorem gcmOpen_gcmSeal (key nonce pt : List Nat) :
    gcmOpen key nonce (gcmSeal key nonce pt) = some pt := by
  have hct : (xorBytes pt (ctrKeystream (keyExpansion key) (nonce ++ [0, 0, 0, 1]) pt.length)).length = pt.length := by
    rw [xorBytes_length, ctrKeystream_length]
    omega
  simp only [gcmOpen, gcmSeal]
  set ws := keyExpansion key with hws
  set j0 := nonce ++ [0, 0, 0, 1] with hj0
  set ct := xorBytes pt (ctrKeystream ws j0 pt.length) with hctdef
  set tag := gcmTag ws j0 ct with htagdef
  have hlen : (ct ++ tag).length = pt.length + 16 := by
    rw [List.length_append, hct, htagdef, gcmTag_length]
  rw [if_neg (by omega)]
  have hsplitlen : (ct ++ tag).length - 16 = ct.length := by
    rw [List.length_append, htagdef, gcmTag_length]
    omega
  have htake : (ct ++ tag).take ((ct ++ tag).length - 16) = ct := by
    rw [hsplitlen]
    exact List.take_left _ _
  have hdrop : (ct ++ tag).drop ((ct ++ tag).length - 16) = tag := by
    rw [hsplitlen]
    exact List.drop_left _ _
  rw [htake, hdrop, if_pos rfl]
  rw [hctdef, hct]
  exact congrArg some (xorBytes_cancel pt _ (by rw [ctrKeystream_length]))

/-- C9: decrypting the token `encrypt` produces under the same
machine-derived key returns the plaintext exactly — through base64,
nonce splitting, tag verification, and CTR inversion. -/
theorem C9_encrypt_decrypt_roundtrip (key nonce pt : List Nat)
    (_hkey : key.length = 32) (hnonce : nonce.length = 12)
    (hnb : ∀ b ∈ nonce, b < 256) (hpb : ∀ b ∈ pt, b < 256) :
    decrypt key (encrypt key nonce pt) = some pt := by
  have hdb : ∀ b ∈ nonce ++ gcmSeal key nonce pt, b < 256 := by
    intro b hb
    rcases List.mem_append.1 hb with h | h
    · exact hnb b h
    · exact gcmSeal_lt key nonce pt hpb b h
  have hlen : (nonce ++ gcmSeal key nonce pt).length = 12 + (pt.length + 16) := by
    rw [List.length_append, hnonce, gcmSeal_length]
  have htake : (nonce ++ gcmSeal key nonce pt).take 12 = nonce := by
    rw [← hnonce]
    exact List.take_left _ _
  have hdrop : (nonce ++ gcmSeal key nonce pt).drop 12 = gcmSeal key nonce pt := by
    rw [← hnonce]
    exact List.drop_left _ _
  simp only [encrypt, decrypt]
  rw [b64decode_b64encode _ hdb]
  simp only [hlen]
  rw [if_neg (by omega), htake, hdrop]
  exact gcmOpen_gcmSeal key nonce pt

/-- Witness for C9: a concrete 32-byte key, 12-byte nonce and 2-byte
plaintext round-trip through the theorem. -/
theorem C9_witness :
    (List.range 32).length = 32 ∧ (List.range 12).length = 12 ∧
    decrypt (List.range 32) (encrypt (List.range 32) (List.range 12) [104, 105]) =
      some [104, 105] :=
  ⟨rfl, rfl,
   C9_encrypt_decrypt_roundtrip (List.range 32) (List.range 12) [104, 105]
     (by decide) (by decide) (by decide) (by decide)⟩
end Arngit
